import Mathlib

/-!
Verification of the ETL normalization and ingest pipeline of the
`data_dashboards_ai` repository (`create_update_db.py`, `update_db_sheets.py`)
and of the per-brand dashboard renderers (`chiesi_budget.py`,
`chiesi_sessions.py`, `ttt.py`, `gum.py`).

Shallow embedding conventions:
* pandas cell values are plain Lean values; missing values (`NaN`/`NaT`/`pd.NA`)
  are `Option.none`;
* Python floats are modelled as exact rationals `ℚ`;
* header cells are `String`s, with `""` for an empty cell (the semantics of
  Google-Sheets reads, and of `fillna("")` on Excel reads);
* word characters for the regex `\W+` are modelled as ASCII alphanumerics and
  underscore (all column names in the repository's sheets are ASCII);
* stateful SQL code is modelled by explicit state passing: a table is a list of
  rows, a schema is a list of (column, dtype) pairs.
-/

/-! ### Python string primitives -/

/-- Python `str.strip()`: drop leading and trailing whitespace. -/
def pyStrip (s : String) : String :=
  ⟨(s.data.dropWhile Char.isWhitespace).reverse.dropWhile Char.isWhitespace |>.reverse⟩

/-- Python `str.lower()` (ASCII). -/
def pyLower (s : String) : String := ⟨s.data.map Char.toLower⟩

/-- A regex `\w` word character (ASCII model): alphanumeric or underscore. -/
def isWordChar (c : Char) : Bool := c.isAlphanum || c = '_'

/-- One pass of `re.sub(r"\W+", "_", ·)`: each maximal run of non-word
characters becomes a single underscore.  `sepPending` records whether the
previous character was part of such a run. -/
def squashNonWord (sepPending : Bool) : List Char → List Char
  | [] => []
  | c :: cs =>
    if isWordChar c then c :: squashNonWord false cs
    else if sepPending then squashNonWord true cs
    else '_' :: squashNonWord true cs

/-- `clean` from both ETL scripts:
`re.sub(r"\W+", "_", str(x).strip().lower())`. -/
def clean (s : String) : String := ⟨squashNonWord false (pyLower (pyStrip s)).data⟩

/-- Python `s.startswith(t)`. -/
def pyStartsWith (s t : String) : Bool := t.data.isPrefixOf s.data

/-- Python `s.endswith(t)`. -/
def pyEndsWith (s t : String) : Bool := t.data.isSuffixOf s.data

/-- Whether `t` occurs as a contiguous substring of `s` (Python `t in s`). -/
def strContainsSub (s t : String) : Bool :=
  s.data.tails.any (fun l => t.data.isPrefixOf l)

/-- A cell that fully matches the regex `^\s*$` (only whitespace):
`update_db_sheets.flatten_columns` turns such upper-header cells into `NA`. -/
def isBlankCell (s : String) : Bool := s.data.all Char.isWhitespace

/-- `re.sub(r"_+", "_", ·)`: collapse runs of underscores. -/
def collapseUnderscores (sepPending : Bool) : List Char → List Char
  | [] => []
  | c :: cs =>
    if c = '_' then
      if sepPending then collapseUnderscores true cs
      else '_' :: collapseUnderscores true cs
    else c :: collapseUnderscores false cs

/-- Python `str.strip("_")`. -/
def stripUnderscores (l : List Char) : List Char :=
  (l.dropWhile (· = '_')).reverse.dropWhile (· = '_') |>.reverse

/-- `normalize_name` from `update_db_sheets.py`: collapse underscores, then
strip leading/trailing underscores. -/
def normalize_name (s : String) : String :=
  ⟨stripUnderscores (collapseUnderscores false s.data)⟩

/-! ### Column-name standardization (`create_update_db.flatten_columns`) -/

/-- The `mapping` dict inside `create_update_db.flatten_columns.standardize`,
in Python insertion order. -/
def stdMapping : List (String × String) :=
  [("week", "period"), ("mese", "period_if_absent"), ("month", "period_if_absent"),
   ("start", "start_date"), ("start_date", "start_date"),
   ("end", "end_date"), ("end_date", "end_date")]

/-- `standardize` from `create_update_db.flatten_columns`: the first mapping
key `k` with `name == k or name.endswith(f"_\x7bk\x7d_") or
name.endswith(f"_\x7bk\x7d") or name.startswith("_unnamed") and k in name`
wins and `name` is replaced by `mapping[k]`. -/
def standardize (name : String) : String :=
  match stdMapping.find? (fun kv =>
      name = kv.1 || pyEndsWith name ("_" ++ kv.1 ++ "_") || pyEndsWith name ("_" ++ kv.1)
        || (pyStartsWith name "_unnamed" && strContainsSub name kv.1)) with
  | some kv => kv.2
  | none => name

/-- The `mapping` dict of `update_db_sheets.flatten_columns`, applied to each
underscore-separated component of a flattened name. -/
def partMap (p : String) : String :=
  match [("week", "period"), ("month", "period"),
         ("start", "start_date"), ("end", "end_date")].find? (fun kv => p = kv.1) with
  | some kv => kv.2
  | none => p

/-! ### The tail of both `flatten_columns` implementations

The last three steps are textually identical in the two scripts: rename
`period_if_absent` to `period` when `period` is absent, drop
`period_if_absent` when both are present, and drop duplicated column names
keeping the first occurrence (`df.loc[:, ~df.columns.duplicated()]`). -/

/-- Keep the first occurrence of every name (pandas `~columns.duplicated()`). -/
def dedupeKeepFirst (seen : List String) : List String → List String
  | [] => []
  | c :: cs =>
    if c ∈ seen then dedupeKeepFirst seen cs
    else c :: dedupeKeepFirst (c :: seen) cs

/-- The shared final stage of `flatten_columns` (both scripts), acting on the
list of column names. -/
def flattenTail (cols : List String) : List String :=
  let cols₁ :=
    if "period" ∉ cols ∧ "period_if_absent" ∈ cols then
      cols.map (fun c => if c = "period_if_absent" then "period" else c)
    else cols
  let cols₂ :=
    if "period" ∈ cols₁ ∧ "period_if_absent" ∈ cols₁ then
      cols₁.filter (fun c => c ≠ "period_if_absent")
    else cols₁
  dedupeKeepFirst [] cols₂

theorem dedupeKeepFirst_nodup (seen : List String) (l : List String) :
    (dedupeKeepFirst seen l).Nodup ∧ ∀ c ∈ dedupeKeepFirst seen l, c ∉ seen ∧ c ∈ l := by
  induction l generalizing seen with
  | nil => simp [dedupeKeepFirst]
  | cons c cs ih =>
    by_cases h : c ∈ seen
    · simp only [dedupeKeepFirst, if_pos h]
      refine ⟨(ih seen).1, fun x hx => ?_⟩
      exact ⟨((ih seen).2 x hx).1, List.mem_cons_of_mem _ ((ih seen).2 x hx).2⟩
    · simp only [dedupeKeepFirst, if_neg h]
      constructor
      · refine List.nodup_cons.mpr ⟨?_, (ih (c :: seen)).1⟩
        intro hc
        exact ((ih (c :: seen)).2 c hc).1 (List.mem_cons_self _ _)
      · intro x hx
        rcases List.mem_cons.mp hx with rfl | hx'
        · exact ⟨h, List.mem_cons_self _ _⟩
        · have := (ih (c :: seen)).2 x hx'
          exact ⟨fun hs => this.1 (List.mem_cons_of_mem _ hs),
                 List.mem_cons_of_mem _ this.2⟩

theorem dedupeKeepFirst_mem (seen : List String) (l : List String) (c : String)
    (hc : c ∈ l) (hs : c ∉ seen) : c ∈ dedupeKeepFirst seen l := by
  induction l generalizing seen with
  | nil => cases hc
  | cons a as ih =>
    by_cases ha : a ∈ seen
    · simp only [dedupeKeepFirst, if_pos ha]
      rcases List.mem_cons.mp hc with rfl | h'
      · exact absurd ha hs
      · exact ih seen h' hs
    · simp only [dedupeKeepFirst, if_neg ha]
      rcases List.mem_cons.mp hc with rfl | h'
      · exact List.mem_cons_self _ _
      · by_cases hca : c = a
        · subst hca; exact List.mem_cons_self _ _
        · exact List.mem_cons_of_mem _
            (ih (a :: seen) h' (by simp [hca, hs]))

theorem flattenTail_nodup (cols : List String) : (flattenTail cols).Nodup :=
  (dedupeKeepFirst_nodup [] _).1

theorem flattenTail_no_period_if_absent (cols : List String) :
    "period_if_absent" ∉ flattenTail cols := by
  intro hmem
  unfold flattenTail at hmem
  have h2 := ((dedupeKeepFirst_nodup [] _).2 _ hmem).2
  by_cases hp : "period" ∉ cols ∧ "period_if_absent" ∈ cols
  · simp only [if_pos hp] at h2
    have hper : "period" ∈ cols.map (fun c => if c = "period_if_absent" then "period" else c) := by
      rcases hp with ⟨_, hpia⟩
      exact List.mem_map.mpr ⟨"period_if_absent", hpia, by simp⟩
    by_cases hboth : "period" ∈ cols.map (fun c => if c = "period_if_absent" then "period" else c) ∧
        "period_if_absent" ∈ cols.map (fun c => if c = "period_if_absent" then "period" else c)
    · simp only [if_pos hboth] at h2
      have := (List.mem_filter.mp h2).2
      simp at this
    · simp only [if_neg hboth] at h2
      rcases List.mem_map.mp h2 with ⟨x, _, hx⟩
      by_cases hxp : x = "period_if_absent" <;> simp [hxp] at hx
  · simp only [if_neg hp] at h2
    by_cases hboth : "period" ∈ cols ∧ "period_if_absent" ∈ cols
    · simp only [if_pos hboth] at h2
      have := (List.mem_filter.mp h2).2
      simp at this
    · simp only [if_neg hboth] at h2
      have hper : "period" ∈ cols := by
        by_contra hnp
        exact hp ⟨hnp, h2⟩
      exact hboth ⟨hper, h2⟩

theorem flattenTail_period_of_pia (cols : List String)
    (h : "period_if_absent" ∈ cols) : "period" ∈ flattenTail cols := by
  unfold flattenTail
  by_cases hp : "period" ∉ cols ∧ "period_if_absent" ∈ cols
  · simp only [if_pos hp]
    have hper : "period" ∈ cols.map (fun c => if c = "period_if_absent" then "period" else c) :=
      List.mem_map.mpr ⟨"period_if_absent", h, by simp⟩
    by_cases hboth : "period" ∈ cols.map (fun c => if c = "period_if_absent" then "period" else c) ∧
        "period_if_absent" ∈ cols.map (fun c => if c = "period_if_absent" then "period" else c)
    · simp only [if_pos hboth]
      refine dedupeKeepFirst_mem [] _ _ ?_ (by simp)
      exact List.mem_filter.mpr ⟨hper, by simp⟩
    · simp only [if_neg hboth]
      exact dedupeKeepFirst_mem [] _ _ hper (by simp)
  · simp only [if_neg hp]
    have hper : "period" ∈ cols := by
      by_contra hnp
      exact hp ⟨hnp, h⟩
    by_cases hboth : "period" ∈ cols ∧ "period_if_absent" ∈ cols
    · simp only [if_pos hboth]
      refine dedupeKeepFirst_mem [] _ _ ?_ (by simp)
      exact List.mem_filter.mpr ⟨hper, by simp⟩
    · simp only [if_neg hboth]
      exact dedupeKeepFirst_mem [] _ _ hper (by simp)

theorem flattenTail_period_of_period (cols : List String)
    (h : "period" ∈ cols) : "period" ∈ flattenTail cols := by
  unfold flattenTail
  by_cases hp : "period" ∉ cols ∧ "period_if_absent" ∈ cols
  · exact absurd h hp.1
  · simp only [if_neg hp]
    by_cases hboth : "period" ∈ cols ∧ "period_if_absent" ∈ cols
    · simp only [if_pos hboth]
      refine dedupeKeepFirst_mem [] _ _ ?_ (by simp)
      exact List.mem_filter.mpr ⟨h, by simp⟩
    · simp only [if_neg hboth]
      exact dedupeKeepFirst_mem [] _ _ h (by simp)

/-! ### Multi-header column naming (`create_update_db.flatten_columns`)

The multi-header branch iterates `zip(upper_row, df.columns)`:
`upper_row = raw_df.iloc[header_row - 1].fillna("").astype(str)` holds the
raw upper header cells, but `df.columns` is the pandas **MultiIndex** built
by `read_excel(header=[header - 1, header])`, so each `bottom` is the whole
`(upper_label, lower_label)` tuple and `metric = clean(bottom)` stringifies
it — `str` of the pair `("chiesi", "gads_delta")` yields the text
`('chiesi', 'gads_delta')` — embedding the parentheses, quotes and comma as
underscores.  pandas builds the upper labels by forward-filling blank cells
behind the last non-blank one (`fill_mi_header`) and naming each
still-missing label `Unnamed: <col>_level_0`.  Scope of the model: lower
header cells are non-blank (true of every sheet and every input below), so
`fill_mi_header`'s second pass is the identity and no `_level_1` names
arise; labels are ASCII without quote characters, so `str` of the tuple
quotes them plainly. -/

/-- Python `str((a, b))` for a pair of string labels. -/
def pyTupleStr (p : String × String) : String :=
  "('" ++ p.1 ++ "', '" ++ p.2 ++ "')"

/-- pandas' name for a missing header label: `Unnamed: <col>_level_0`. -/
def unnamedLabel (i : Nat) : String := "Unnamed: " ++ Nat.repr i ++ "_level_0"

/-- pandas `Series.ffill`: propagate the last non-NA value.  Used both for
the blanked-out upper header row of `update_db_sheets.flatten_columns` and
as the effect of pandas' `fill_mi_header` pass over the upper header row of
a multi-header `read_excel` (whose blank cells are `""`). -/
def ffill (last : Option String) : List (Option String) → List (Option String)
  | [] => []
  | none :: rest => last :: ffill last rest
  | some s :: rest => some s :: ffill (some s) rest

/-- Name the labels still missing after the forward fill, by column index. -/
def labelsFrom (i : Nat) : List (Option String) → List String
  | [] => []
  | none :: rest => unnamedLabel i :: labelsFrom (i + 1) rest
  | some s :: rest => s :: labelsFrom (i + 1) rest

/-- The upper level of the MultiIndex that `read_excel` builds from the raw
upper header row: blanks forward-filled, leading blanks named `Unnamed:`. -/
def pandasUpperLabels (upper : List String) : List String :=
  labelsFrom 0 (ffill none (upper.map (fun s => if s = "" then none else some s)))

/-- `df.columns` of the multi-header read: the tuples of upper-level label
and lower header cell. -/
def pandasMultiHeader (upper lower : List String) : List (String × String) :=
  (pandasUpperLabels upper).zip lower

/-- One column name of `create_update_db.flatten_columns` (multi-header):
`top` is the raw upper cell, `bottom` the column's MultiIndex tuple, and
`metric = clean(bottom)` goes through `str` of that tuple. -/
def create_col_name (top : String) (bottom : String × String) : String :=
  let brand := clean top
  let metric := clean (pyTupleStr bottom)
  let metric_clean := standardize metric
  let is_unnamed := pyStartsWith (pyLower (pyStrip top)) "unnamed" || brand = ""
  if is_unnamed || metric_clean ∈ ["period", "period_if_absent", "start_date", "end_date"] then
    metric_clean
  else brand ++ "_" ++ metric_clean

/-- `create_update_db.flatten_columns` on a two-level header, as a function
from the raw upper/lower header rows to the final column-name list: the raw
upper cells (after `fillna("")`) zipped with the MultiIndex tuples. -/
def createFlattenNames (upper lower : List String) : List String :=
  flattenTail ((upper.zip (pandasMultiHeader upper lower)).map
    (fun tb => create_col_name tb.1 tb.2))

/-- `update_db_sheets.flatten_columns` base name for one column:
`f"\x7bbrand\x7d_\x7bmetric\x7d" if brand else metric` with
`brand = clean(top) if pd.notna(top) else ""`. -/
def update_base (top : Option String) (bottom : String) : String :=
  let brand := match top with | some t => clean t | none => ""
  let metric := clean bottom
  if brand = "" then metric else brand ++ "_" ++ metric

/-- Python `str.split(sep)` for a one-character separator (so
`"a__b".split("_") == ["a", "", "b"]` and `"".split("_") == [""]`). -/
def splitOnChar (sep : Char) : List Char → List (List Char)
  | [] => [[]]
  | c :: cs =>
    match splitOnChar sep cs with
    | [] => [[]]
    | r :: rs => if c = sep then [] :: r :: rs else (c :: r) :: rs

/-- Python `sep.join(parts)`. -/
def joinWith (sep : List Char) : List (List Char) → List Char
  | [] => []
  | [x] => x
  | x :: y :: ys => x ++ sep ++ joinWith sep (y :: ys)

/-- `update_db_sheets.flatten_columns` keyword standardization: map every
underscore-separated part through `partMap`, rejoin with `"_"`, then
`normalize_name`. -/
def update_map_base (base : String) : String :=
  normalize_name ⟨joinWith ['_'] ((splitOnChar '_' base.data).map (fun p => (partMap ⟨p⟩).data))⟩

/-- `update_db_sheets.flatten_columns` on a two-level header: blank upper
cells become `NA`, brands are forward-filled, then each column is named and
standardized part-by-part. -/
def updateFlattenNames (upper lower : List String) : List String :=
  let upperF := ffill none (upper.map (fun s => if isBlankCell s then none else some s))
  flattenTail ((upperF.zip lower).map (fun tb => update_map_base (update_base tb.1 tb.2)))

theorem head_dropWhile_not {α : Type} (p : α → Bool) (l : List α) (c : α)
    (h : (l.dropWhile p).head? = some c) : p c = false := by
  induction l with
  | nil => simp [List.dropWhile] at h
  | cons a as ih =>
    rw [List.dropWhile_cons] at h
    by_cases hp : p a = true
    · rw [if_pos hp] at h
      exact ih h
    · rw [if_neg hp] at h
      simp only [List.head?_cons, Option.some.injEq] at h
      subst h
      simpa using hp

theorem dropWhile_eq_self_of_head (p : Char → Bool) (l : List Char)
    (h : ∀ c, l.head? = some c → p c = false) : l.dropWhile p = l := by
  cases l with
  | nil => rfl
  | cons a t => rw [List.dropWhile_cons, if_neg (by simp [h a rfl])]

theorem stripUnderscores_getLast_ne (l : List Char) :
    (stripUnderscores l).getLast? ≠ some '_' := by
  unfold stripUnderscores
  intro h
  rw [List.getLast?_reverse] at h
  have := head_dropWhile_not _ _ _ h
  simp at this

theorem update_map_base_getLast_ne (base : String) :
    (update_map_base base).data.getLast? ≠ some '_' :=
  stripUnderscores_getLast_ne _

theorem squashNonWord_ne_nil_of_false (c : Char) (l : List Char) :
    squashNonWord false (c :: l) ≠ [] := by
  unfold squashNonWord
  split <;> simp

theorem squashNonWord_getLast (l : List Char) (c : Char)
    (hlast : l.getLast? = some c) (hnw : isWordChar c = false) (b : Bool) :
    squashNonWord b l = [] ∨ (squashNonWord b l).getLast? = some '_' := by
  induction l generalizing b with
  | nil => simp at hlast
  | cons a as ih =>
    cases as with
    | nil =>
      simp only [List.getLast?_singleton, Option.some.injEq] at hlast
      subst hlast
      cases b with
      | true =>
        left
        unfold squashNonWord
        rw [if_neg (by simp [hnw]), if_pos rfl]
        rfl
      | false =>
        right
        unfold squashNonWord
        rw [if_neg (by simp [hnw]), if_neg (by decide)]
        rfl
    | cons a2 as2 =>
      have hlast2 : (a2 :: as2).getLast? = some c := by
        rw [List.getLast?_cons_cons] at hlast
        exact hlast
      by_cases hw : isWordChar a = true
      · right
        have hne := squashNonWord_ne_nil_of_false a2 as2
        rcases ih hlast2 false with hnil | hlastu
        · exact absurd hnil hne
        · obtain ⟨x, t, hx⟩ := List.exists_cons_of_ne_nil hne
          unfold squashNonWord
          rw [if_pos hw, hx, List.getLast?_cons_cons]
          rw [hx] at hlastu
          exact hlastu
      · cases b with
        | true =>
          have hstep : squashNonWord true (a :: a2 :: as2) = squashNonWord true (a2 :: as2) := by
            unfold squashNonWord
            rw [if_neg hw, if_pos rfl]
            rfl
          rw [hstep]
          exact ih hlast2 true
        | false =>
          right
          have hstep : squashNonWord false (a :: a2 :: as2)
              = '_' :: squashNonWord true (a2 :: as2) := by
            unfold squashNonWord
            rw [if_neg hw, if_neg (by decide)]
            rfl
          rw [hstep]
          rcases ih hlast2 true with hnil | hlastu
          · rw [hnil]
            rfl
          · have hne2 : squashNonWord true (a2 :: as2) ≠ [] := by
              intro hn
              rw [hn] at hlastu
              simp at hlastu
            obtain ⟨x, t, hx⟩ := List.exists_cons_of_ne_nil hne2
            rw [hx] at hlastu ⊢
            rw [List.getLast?_cons_cons]
            exact hlastu

theorem pyTupleStr_data (p : String × String) :
    (pyTupleStr p).data
      = '(' :: '\'' :: (p.1.data ++ ("', '".data ++ (p.2.data ++ ['\'', ')']))) := by
  unfold pyTupleStr
  simp only [String.data_append, List.append_assoc]
  rfl

theorem pyTupleStr_getLast (p : String × String) :
    (pyTupleStr p).data.getLast? = some ')' := by
  rw [pyTupleStr_data]
  rw [show ('(' :: '\'' :: (p.1.data ++ ("', '".data ++ (p.2.data ++ ['\'', ')']))))
      = ('(' :: '\'' :: (p.1.data ++ ("', '".data ++ p.2.data ++ ['\'']))) ++ [')'] by
    simp]
  exact List.getLast?_concat _

theorem pyStrip_tuple (p : String × String) : pyStrip (pyTupleStr p) = pyTupleStr p := by
  unfold pyStrip
  have hhead : ∀ c, (pyTupleStr p).data.head? = some c → Char.isWhitespace c = false := by
    rw [pyTupleStr_data]
    intro c hc
    simp only [List.head?_cons, Option.some.injEq] at hc
    subst hc
    decide
  have hrevhead : ∀ c, (pyTupleStr p).data.reverse.head? = some c
      → Char.isWhitespace c = false := by
    intro c hc
    rw [List.head?_reverse, pyTupleStr_getLast p] at hc
    simp only [Option.some.injEq] at hc
    subst hc
    decide
  rw [dropWhile_eq_self_of_head _ _ hhead, dropWhile_eq_self_of_head _ _ hrevhead,
    List.reverse_reverse]

theorem clean_pyTupleStr_getLast (p : String × String) :
    (clean (pyTupleStr p)).data.getLast? = some '_' := by
  unfold clean
  rw [pyStrip_tuple]
  have hlow : (pyLower (pyTupleStr p)).data = (pyTupleStr p).data.map Char.toLower := rfl
  have hlast : ((pyTupleStr p).data.map Char.toLower).getLast? = some ')' := by
    rw [List.getLast?_map, pyTupleStr_getLast]
    rfl
  have hne : squashNonWord false ((pyTupleStr p).data.map Char.toLower) ≠ [] := by
    rw [pyTupleStr_data]
    exact squashNonWord_ne_nil_of_false _ _
  rcases squashNonWord_getLast _ ')' hlast (by decide) false with hnil | hres
  · exact absurd hnil hne
  · show (squashNonWord false (pyLower (pyTupleStr p)).data).getLast? = some '_'
    rw [hlow]
    exact hres

theorem clean_pyTupleStr_ne_nil (p : String × String) :
    (clean (pyTupleStr p)).data ≠ [] := by
  unfold clean
  rw [pyStrip_tuple]
  show squashNonWord false ((pyTupleStr p).data.map Char.toLower) ≠ []
  rw [pyTupleStr_data]
  exact squashNonWord_ne_nil_of_false _ _

theorem clean_tuple_not_key (p : String × String) :
    clean (pyTupleStr p)
      ∉ (["period", "period_if_absent", "start_date", "end_date"] : List String) := by
  intro hmem
  have hlast := clean_pyTupleStr_getLast p
  rcases (by simpa using hmem : clean (pyTupleStr p) = "period"
      ∨ clean (pyTupleStr p) = "period_if_absent"
      ∨ clean (pyTupleStr p) = "start_date"
      ∨ clean (pyTupleStr p) = "end_date") with h | h | h | h <;>
    rw [h] at hlast <;> simp at hlast

theorem create_col_name_brand_form (top : String) (lbl : String × String)
    (hu : pyStartsWith (pyLower (pyStrip top)) "unnamed" = false)
    (hb : clean top ≠ "")
    (hm : standardize (clean (pyTupleStr lbl)) = clean (pyTupleStr lbl)) :
    create_col_name top lbl = clean top ++ "_" ++ clean (pyTupleStr lbl) := by
  simp [create_col_name, hu, hb, hm, clean_tuple_not_key lbl]

theorem create_col_name_brand_getLast (top : String) (lbl : String × String)
    (hu : pyStartsWith (pyLower (pyStrip top)) "unnamed" = false)
    (hb : clean top ≠ "")
    (hm : standardize (clean (pyTupleStr lbl)) = clean (pyTupleStr lbl)) :
    (create_col_name top lbl).data.getLast? = some '_' := by
  rw [create_col_name_brand_form top lbl hu hb hm]
  rw [String.data_append, String.data_append]
  rw [List.getLast?_append, clean_pyTupleStr_getLast lbl]
  rfl

/-- C4 (counterexample).  The two `flatten_columns` implementations do NOT
produce the same flat column names on the same raw header rows.  For the
two-level header whose upper row is `["", "chiesi", ""]` (brand cell merged
over the two metric columns) and whose lower row is
`["week", "gads_delta", "adform_delta"]`, pandas builds the MultiIndex
`[("Unnamed: 0_level_0", "week"), ("chiesi", "gads_delta"),
("chiesi", "adform_delta")]`; `create_update_db` stringifies each tuple, so
it emits `chiesi__chiesi_gads_delta_` and (blank raw brand cell)
`_chiesi_adform_delta_`, while `update_db_sheets` works from the raw rows
and emits `chiesi_gads_delta` and (forward-filled) `chiesi_adform_delta`. -/
theorem flatten_columns_differ_cex :
    createFlattenNames ["", "chiesi", ""] ["week", "gads_delta", "adform_delta"]
      = ["period", "chiesi__chiesi_gads_delta_", "_chiesi_adform_delta_"]
    ∧ updateFlattenNames ["", "chiesi", ""] ["week", "gads_delta", "adform_delta"]
      = ["period", "chiesi_gads_delta", "chiesi_adform_delta"]
    ∧ createFlattenNames ["", "chiesi", ""] ["week", "gads_delta", "adform_delta"]
      ≠ updateFlattenNames ["", "chiesi", ""] ["week", "gads_delta", "adform_delta"] :=
  ⟨by decide, by decide, by decide⟩

/-- C4 (amended).  The two normalizations agree only on the standardized key
columns and provably differ on every brand column.  Key columns: both send
the `Week`/`Start`/`End` columns — whose MultiIndex labels are
`("Unnamed: <i>_level_0", key)` — to `period`/`start_date`/`end_date`.
Brand columns: for every raw brand cell that does not clean to the empty
name and does not start with `unnamed`, and every MultiIndex tuple left
untouched by `create_update_db`'s keyword standardization,
`create_update_db`'s flat name embeds the stringified tuple and ends in an
underscore, while `update_db_sheets`'s `normalize_name` output never ends in
an underscore — so the two names are never equal. -/
theorem flatten_columns_key_only_agreement :
    (create_col_name "" ("Unnamed: 0_level_0", "week") = "period"
      ∧ update_map_base (update_base none "week") = "period")
    ∧ (create_col_name "" ("Unnamed: 1_level_0", "start") = "start_date"
      ∧ update_map_base (update_base none "start") = "start_date")
    ∧ (create_col_name "" ("Unnamed: 2_level_0", "end") = "end_date"
      ∧ update_map_base (update_base none "end") = "end_date")
    ∧ ∀ (top m : String) (lbl : String × String),
        pyStartsWith (pyLower (pyStrip top)) "unnamed" = false →
        clean top ≠ "" →
        standardize (clean (pyTupleStr lbl)) = clean (pyTupleStr lbl) →
        create_col_name top lbl ≠ update_map_base (update_base (some top) m) := by
  refine ⟨⟨by decide, by decide⟩, ⟨by decide, by decide⟩, ⟨by decide, by decide⟩, ?_⟩
  intro top m lbl hu hb hm heq
  have h1 := create_col_name_brand_getLast top lbl hu hb hm
  rw [heq] at h1
  exact update_map_base_getLast_ne (update_base (some top) m) h1

/-- C4 witness: the brand-column divergence at the concrete Chiesi column
(raw brand cell `Chiesi`, MultiIndex tuple `("chiesi", "gads_delta")`):
`create_update_db` yields `chiesi__chiesi_gads_delta_`, `update_db_sheets`
yields `chiesi_gads_delta`, and the theorem's inequality applies. -/
theorem flatten_columns_key_only_agreement_witness :
    create_col_name "Chiesi" ("chiesi", "gads_delta")
      ≠ update_map_base (update_base (some "Chiesi") "gads_delta") :=
  flatten_columns_key_only_agreement.2.2.2 "Chiesi" "gads_delta" ("chiesi", "gads_delta")
    (by decide) (by decide) (by decide)

/-- C9: `flatten_columns` (both scripts) returns pairwise-distinct column
names and at most one `period` column: `period_if_absent` never survives
(it is renamed to `period` when `period` is absent, dropped when both are
present), and duplicate names are removed keeping the first occurrence. -/
theorem flatten_columns_distinct_names (upper lower : List String) :
    (createFlattenNames upper lower).Nodup
    ∧ List.count "period" (createFlattenNames upper lower) ≤ 1
    ∧ "period_if_absent" ∉ createFlattenNames upper lower
    ∧ (updateFlattenNames upper lower).Nodup
    ∧ List.count "period" (updateFlattenNames upper lower) ≤ 1
    ∧ "period_if_absent" ∉ updateFlattenNames upper lower
    ∧ (∀ cols : List String, "period_if_absent" ∈ cols → "period" ∈ flattenTail cols)
    ∧ (∀ cols : List String, "period" ∈ cols → "period" ∈ flattenTail cols) := by
  refine ⟨flattenTail_nodup _, ?_, flattenTail_no_period_if_absent _,
    flattenTail_nodup _, ?_, flattenTail_no_period_if_absent _,
    flattenTail_period_of_pia, flattenTail_period_of_period⟩
  · exact List.nodup_iff_count_le_one.mp (flattenTail_nodup _) _
  · exact List.nodup_iff_count_le_one.mp (flattenTail_nodup _) _

/-- C9 witness: the distinctness properties at a concrete GUM-style header. -/
theorem flatten_columns_distinct_names_witness :
    (createFlattenNames ["", "Organic"] ["Month", "UV"]).Nodup
    ∧ List.count "period" (createFlattenNames ["", "Organic"] ["Month", "UV"]) ≤ 1
    ∧ "period_if_absent" ∉ createFlattenNames ["", "Organic"] ["Month", "UV"]
    ∧ (updateFlattenNames ["", "Organic"] ["Month", "UV"]).Nodup
    ∧ List.count "period" (updateFlattenNames ["", "Organic"] ["Month", "UV"]) ≤ 1
    ∧ "period_if_absent" ∉ updateFlattenNames ["", "Organic"] ["Month", "UV"]
    ∧ (∀ cols : List String, "period_if_absent" ∈ cols → "period" ∈ flattenTail cols)
    ∧ (∀ cols : List String, "period" ∈ cols → "period" ∈ flattenTail cols) :=
  flatten_columns_distinct_names ["", "Organic"] ["Month", "UV"]

/-! ### `extract_number` (`update_db_sheets.py`, lines 82–117) -/

/-- `re.sub(r"[^0-9\-,\.]+", "", txt)`: keep only digits, minus signs,
commas and dots. -/
def stripToNumeric (l : List Char) : List Char :=
  l.filter (fun c => c.isDigit || c = '-' || c = ',' || c = '.')

/-- Python `str.replace(c, "")`. -/
def pyReplaceAll (c : Char) : List Char → List Char
  | [] => []
  | x :: xs => if x = c then pyReplaceAll c xs else x :: pyReplaceAll c xs

/-- Python `s.split(c, 1)` when `c` occurs in `s` (and `(s, "")` otherwise):
the part before the first occurrence and the part after it. -/
def splitFirst (c : Char) : List Char → List Char × List Char
  | [] => ([], [])
  | x :: xs =>
    if x = c then ([], xs)
    else
      let p := splitFirst c xs
      (x :: p.1, p.2)

/-- Value of a digit string. -/
def digitsVal (l : List Char) : Nat :=
  l.foldl (fun a c => a * 10 + (c.toNat - '0'.toNat)) 0

/-- Python `float(core)` for a string over digits, `-`, `,`, `.`:
it succeeds exactly on an optional leading minus followed by a nonempty
digit string with at most one dot and at least one digit, and fails (the
`except ValueError` branch, modelled as `none`) otherwise.  Exponents,
`inf`/`nan`, underscores and whitespace cannot occur in `core` because the
preceding regex removed them. -/
def pyFloatOfCore (l : List Char) : Option ℚ :=
  let neg := match l with | '-' :: _ => true | _ => false
  let body := match l with | '-' :: rest => rest | _ => l
  if body ≠ [] ∧ body.all (fun c => c.isDigit || c = '.') ∧ body.count '.' ≤ 1
      ∧ body.any Char.isDigit then
    let ip := body.takeWhile (fun c => c ≠ '.')
    let fp := (body.dropWhile (fun c => c ≠ '.')).drop 1
    let den : Nat := 10 ^ fp.length
    let mag : Nat := digitsVal ip * den + digitsVal fp
    some (mkRat (if neg then -(mag : Int) else (mag : Int)) den)
  else none

/-- `extract_number` from `update_db_sheets.py`, structured exactly as the
source: strip to the numeric alphabet, return NaN (`none`) on empty, remove
all commas when both separators occur, split on the first occurrence of the
single separator otherwise (`len(right) == 3` means thousands, anything else
means decimal), and convert with Python `float`. -/
def extract_number (s : String) : Option ℚ :=
  let core := stripToNumeric s.data
  if core = [] then none
  else if core.contains ',' && core.contains '.' then
    pyFloatOfCore (pyReplaceAll ',' core)
  else if core.contains ',' then
    let p := splitFirst ',' core
    if p.2.length = 3 then pyFloatOfCore (p.1 ++ p.2)
    else pyFloatOfCore (p.1 ++ '.' :: p.2)
  else if core.contains '.' then
    let p := splitFirst '.' core
    if p.2.length = 3 then pyFloatOfCore (p.1 ++ p.2)
    else pyFloatOfCore (p.1 ++ '.' :: p.2)
  else pyFloatOfCore core

/-- Delete the first occurrence of `c`. -/
def removeFirstOcc (c : Char) : List Char → List Char
  | [] => []
  | x :: xs => if x = c then xs else x :: removeFirstOcc c xs

/-- Replace the first occurrence of `c` by `r`. -/
def replaceFirstOcc (c r : Char) : List Char → List Char
  | [] => []
  | x :: xs => if x = c then r :: xs else x :: replaceFirstOcc c r xs

/-- Number of characters after the first occurrence of `c`. -/
def charsAfterFirst (c : Char) : List Char → Nat
  | [] => 0
  | x :: xs => if x = c then xs.length else charsAfterFirst c xs

/-- `extract_number` as the claim words it: strip all characters except
digits, minus signs, commas and dots; NaN on empty; with both separators
remove the commas as thousands separators; with exactly one separator kind,
remove its first occurrence when exactly 3 characters follow it, and treat
it as a decimal point otherwise; NaN when the final conversion fails. -/
def extract_number_claim (s : String) : Option ℚ :=
  let core := stripToNumeric s.data
  if core = [] then none
  else if core.contains ',' && core.contains '.' then
    pyFloatOfCore (core.filter (fun c => c ≠ ','))
  else if core.contains ',' then
    if charsAfterFirst ',' core = 3 then pyFloatOfCore (removeFirstOcc ',' core)
    else pyFloatOfCore (replaceFirstOcc ',' '.' core)
  else if core.contains '.' then
    if charsAfterFirst '.' core = 3 then pyFloatOfCore (removeFirstOcc '.' core)
    else pyFloatOfCore (replaceFirstOcc '.' '.' core)
  else pyFloatOfCore core

theorem pyReplaceAll_eq_filter (c : Char) (l : List Char) :
    pyReplaceAll c l = l.filter (fun x => x ≠ c) := by
  induction l with
  | nil => rfl
  | cons x xs ih =>
    by_cases h : x = c <;> simp [pyReplaceAll, h, ih]

theorem splitFirst_append (c : Char) (l : List Char) :
    (splitFirst c l).1 ++ (splitFirst c l).2 = removeFirstOcc c l := by
  induction l with
  | nil => rfl
  | cons x xs ih =>
    by_cases h : x = c <;> simp [splitFirst, removeFirstOcc, h, ih]

theorem splitFirst_replace (c r : Char) (l : List Char) (hmem : c ∈ l) :
    (splitFirst c l).1 ++ r :: (splitFirst c l).2 = replaceFirstOcc c r l := by
  induction l with
  | nil => cases hmem
  | cons x xs ih =>
    by_cases h : x = c
    · simp [splitFirst, replaceFirstOcc, h]
    · have hxs : c ∈ xs := by
        rcases List.mem_cons.mp hmem with h' | h'
        · exact absurd h'.symm h
        · exact h'
      simp [splitFirst, replaceFirstOcc, h, ih hxs]

theorem splitFirst_snd_length (c : Char) (l : List Char) :
    (splitFirst c l).2.length = charsAfterFirst c l := by
  induction l with
  | nil => rfl
  | cons x xs ih =>
    by_cases h : x = c <;> simp [splitFirst, charsAfterFirst, h, ih]

/-- C5: `extract_number` performs exactly the locale-aware parse the claim
describes, on every input string. -/
theorem extract_number_matches_claim (s : String) :
    extract_number s = extract_number_claim s := by
  unfold extract_number extract_number_claim
  by_cases h0 : stripToNumeric s.data = []
  · simp [h0]
  · simp only [if_neg h0]
    by_cases hc : (stripToNumeric s.data).contains ','
    · by_cases hd : (stripToNumeric s.data).contains '.'
      · simp only [hc, hd, Bool.and_self, if_pos rfl, if_true]
        rw [pyReplaceAll_eq_filter]
      · simp only [hc, hd, Bool.and_false, if_true, if_false, Bool.false_eq_true]
        rw [← splitFirst_snd_length]
        have hmem : ',' ∈ stripToNumeric s.data := by
          simpa using hc
        by_cases h3 : (splitFirst ',' (stripToNumeric s.data)).2.length = 3
        · simp only [if_pos h3, splitFirst_append]
        · simp only [if_neg h3, splitFirst_replace ',' '.' _ hmem]
    · by_cases hd : (stripToNumeric s.data).contains '.'
      · simp only [hc, hd, Bool.false_and, if_true, if_false, Bool.false_eq_true]
        rw [← splitFirst_snd_length]
        have hmem : '.' ∈ stripToNumeric s.data := by
          simpa using hd
        by_cases h3 : (splitFirst '.' (stripToNumeric s.data)).2.length = 3
        · simp only [if_pos h3, splitFirst_append]
        · simp only [if_neg h3, splitFirst_replace '.' '.' _ hmem]
      · simp only [hc, hd, Bool.false_and, if_false, Bool.false_eq_true]

/-- C5 witness: the equivalence evaluated at a locale-typical input, together
with the concrete value both sides take there. -/
theorem extract_number_matches_claim_witness :
    extract_number "€ 1.234,56" = extract_number_claim "€ 1.234,56"
    ∧ extract_number "€ 1,234.56" = some (mkRat 123456 100) :=
  ⟨extract_number_matches_claim "€ 1.234,56", by decide⟩

/-! ### Dates

`pd.Timestamp.today().normalize()` and the sheet's `start`/`end` cells are
modelled as proleptic-Gregorian calendar dates; `toOrdinal` is
`datetime.date.toordinal` (day 1 = 0001-01-01), `pyWeekday` is
`date.weekday()` (Monday = 0), `isoWeek` is `date.isocalendar().week`
following CPython, and `monthLength y m` is `calendar.monthrange(y, m)[1]`. -/

structure Date where
  y : Nat
  m : Nat
  d : Nat
deriving DecidableEq

def isLeap (y : Nat) : Bool := (y % 4 = 0 && y % 100 ≠ 0) || y % 400 = 0

def monthLength (y m : Nat) : Nat :=
  if m = 2 then (if isLeap y then 29 else 28)
  else if m ∈ [4, 6, 9, 11] then 30
  else 31

def daysBeforeYear (y : Nat) : Nat :=
  let n := y - 1
  365 * n + n / 4 - n / 100 + n / 400

def daysBeforeMonth (y m : Nat) : Nat :=
  ((List.range (m - 1)).map (fun i => monthLength y (i + 1))).sum

def toOrdinal (dt : Date) : Int :=
  ((daysBeforeYear dt.y + daysBeforeMonth dt.y dt.m + dt.d : Nat) : Int)

def pyWeekday (dt : Date) : Int := (toOrdinal dt + 6) % 7

def isoWeek1Monday (y : Nat) : Int :=
  let firstday := toOrdinal ⟨y, 1, 1⟩
  let firstweekday := (firstday + 6) % 7
  let w1 := firstday - firstweekday
  if firstweekday > 3 then w1 + 7 else w1

def isoWeek (dt : Date) : Int :=
  let today := toOrdinal dt
  let week := Int.fdiv (today - isoWeek1Monday dt.y) 7
  if week < 0 then
    Int.fdiv (today - isoWeek1Monday (dt.y - 1)) 7 + 1
  else if week ≥ 52 ∧ today ≥ isoWeek1Monday (dt.y + 1) then 1
  else week + 1

/-- Python `int(round(x))` on an exact rational: round half to even.
For `q = n/d` with `d > 0`, compare twice the remainder of the floor
division against `d`. -/
def pyRound (q : ℚ) : Int :=
  let n := q.num
  let d : Int := (q.den : Int)
  let f := Int.fdiv n d
  let r := n - f * d
  if 2 * r < d then f
  else if d < 2 * r then f + 1
  else if f % 2 = 0 then f else f + 1

/-! ### `mark_open_period`

A dataframe row carries the (possibly missing) `start_date`/`end_date`
cells, the period number, the frame's `period_type`, and the numeric metric
values after the `extract_number` cleaning pass (`none` = `NaN`).  The
forecast columns are produced as a parallel list of nullable integers
(`pd.NA`-initialised `Int64` series in the source). -/

structure MRow where
  start_d : Option Date
  end_d : Option Date
  period : Int
  period_type : String
  vals : List (Option ℚ)
deriving DecidableEq

/-- `update_db_sheets.mark_open_period`, date branch:
`df["is_final"] = df[end_col] < today` (`NaT < today` is false). -/
def is_final_dates_update (today : Date) (r : MRow) : Bool :=
  match r.end_d with
  | some e => toOrdinal e < toOrdinal today
  | none => false

/-- `mask_current = (df[start_col] <= today) & (df[end_col] >= today)`. -/
def mask_current_dates (today : Date) (r : MRow) : Bool :=
  match r.start_d, r.end_d with
  | some s, some e => toOrdinal s ≤ toOrdinal today && toOrdinal today ≤ toOrdinal e
  | _, _ => false

/-- `elapsed = (today - df[start_col]).dt.days + 1`. -/
def elapsedDays (today s : Date) : Int := toOrdinal today - toOrdinal s + 1

/-- The per-row total-days override of `update_db_sheets.mark_open_period`:
`td = 7` for week data, `calendar.monthrange(st.year, st.month)[1]` for the
start date's month otherwise. -/
def forecastTotalDays (ptype : String) (s : Date) : Int :=
  if ptype = "week" then 7 else (monthLength s.y s.m : Int)

/-- The forecast columns of one row in `update_db_sheets.mark_open_period`,
date branch: rows outside `mask_current` keep the `pd.NA` initialisation;
a masked row with `ed <= 0` is skipped (`continue`); otherwise each non-NaN
value `v` yields `int(round(v / ed * td))`. -/
def mark_row_forecasts_update (today : Date) (r : MRow) : List (Option Int) :=
  if mask_current_dates today r then
    match r.start_d with
    | some s =>
      let ed := elapsedDays today s
      if ed ≤ 0 then r.vals.map (fun _ => none)
      else
        let td := forecastTotalDays r.period_type s
        r.vals.map (fun v => v.map (fun x => pyRound (x / (ed : ℚ) * (td : ℚ))))
    | none => r.vals.map (fun _ => none)
  else r.vals.map (fun _ => none)

/-- `current` in the no-dates branch of `update_db_sheets.mark_open_period`:
the current ISO week number for week data, the current month otherwise. -/
def currentPeriodScalar (today : Date) (ptype : String) : Int :=
  if ptype = "week" then isoWeek today else (today.m : Int)

/-- `total_days` in the no-dates branch. -/
def totalDaysScalar (today : Date) (ptype : String) : Int :=
  if ptype = "week" then 7 else (monthLength today.y today.m : Int)

/-- `elapsed` in the no-dates branch: `today.weekday() + 1` or `today.day`. -/
def elapsedScalar (today : Date) (ptype : String) : Int :=
  if ptype = "week" then pyWeekday today + 1 else (today.d : Int)

/-- `update_db_sheets.mark_open_period`, no-dates branch:
`df["is_final"] = df[period_col] < current`. -/
def is_final_nodates_update (today : Date) (ptype : String) (period : Int) : Bool :=
  period < currentPeriodScalar today ptype

/-- Forecast columns of one row in the no-dates branch of
`update_db_sheets.mark_open_period`. -/
def mark_row_forecasts_nodates_update (today : Date) (ptype : String) (r : MRow) :
    List (Option Int) :=
  if elapsedScalar today ptype > 0 ∧ r.period = currentPeriodScalar today ptype then
    r.vals.map (fun v => v.map (fun x =>
      pyRound (x / (elapsedScalar today ptype : ℚ) * (totalDaysScalar today ptype : ℚ))))
  else r.vals.map (fun _ => none)

/-- `create_update_db.mark_open_period`, date branch:
`df["is_final"] = df[end_col] <= today`. -/
def is_final_dates_create (today : Date) (r : MRow) : Bool :=
  match r.end_d with
  | some e => toOrdinal e ≤ toOrdinal today
  | none => false

/-- `create_update_db.mark_open_period`, no-dates branch:
`df["is_final"] = df[period_col] != df[period_col].max()` — today's date is
never consulted. -/
def is_final_nodates_create (periods : List Int) (p : Int) : Bool :=
  match periods.max? with
  | some mx => p ≠ mx
  | none => false

/-- The current-week row used in the C2 witness and counterexample:
start Monday 2026-10-05, end Sunday 2026-10-11, one metric with partial
actual 10, evaluated on Wednesday 2026-10-07 (elapsed = 3 of 7 days). -/
def c2row : MRow := ⟨some ⟨2026, 10, 5⟩, some ⟨2026, 10, 11⟩, 41, "week", [some 10]⟩

unseal Rat.mul Rat.inv in
/-- C2 (counterexample).  `mark_open_period` does not store the exact linear
extrapolation `value / elapsed_days * total_days`: for the current-week row
`c2row` the code stores `int(round(10 / 3 * 7)) = 23`, while the claimed
value `10 / 3 * 7 = 70/3` is not 23. -/
theorem mark_open_period_forecast_rounds_cex :
    mark_row_forecasts_update ⟨2026, 10, 7⟩ c2row = [some 23]
    ∧ (10 : ℚ) / 3 * 7 ≠ (23 : ℚ) := by
  constructor
  · decide
  · decide

/-- C2 (amended).  In `update_db_sheets.mark_open_period` (date branch),
a row of the current in-progress period (not final, today between
`start_date` and `end_date`, elapsed days positive) gets, for every numeric
metric value, the linear extrapolation to period end **rounded half-to-even
to an integer** — `int(round(value / elapsed * total))`, with
`elapsed = (today - start).days + 1` and `total` = 7 for week data / the
length of the start month for month data; every other row (and every NaN
value) gets NA. -/
theorem mark_open_period_forecast_rounded (today : Date) (r : MRow) :
    ((r.start_d = none ∨ r.end_d = none) →
      mark_row_forecasts_update today r = r.vals.map (fun _ => none))
    ∧ (∀ s e, r.start_d = some s → r.end_d = some e →
        mark_row_forecasts_update today r =
          r.vals.map (fun v =>
            if is_final_dates_update today r = false
                ∧ toOrdinal s ≤ toOrdinal today ∧ toOrdinal today ≤ toOrdinal e
                ∧ 0 < elapsedDays today s then
              v.map (fun x => pyRound (x / (elapsedDays today s : ℚ)
                * (forecastTotalDays r.period_type s : ℚ)))
            else none)) := by
  constructor
  · intro h
    rcases h with h | h <;>
      cases hs : r.start_d <;> cases he : r.end_d <;>
        simp_all [mark_row_forecasts_update, mask_current_dates]
  · intro s e hs he
    have hfin : is_final_dates_update today r = decide (toOrdinal e < toOrdinal today) := by
      simp [is_final_dates_update, he]
    have hmask : mask_current_dates today r
        = (decide (toOrdinal s ≤ toOrdinal today) && decide (toOrdinal today ≤ toOrdinal e)) := by
      simp [mask_current_dates, hs, he]
    by_cases hcur : toOrdinal s ≤ toOrdinal today ∧ toOrdinal today ≤ toOrdinal e
    · have hed : 0 < elapsedDays today s := by
        have h1 := hcur.1
        simp only [elapsedDays]
        omega
      have hcond : is_final_dates_update today r = false
          ∧ toOrdinal s ≤ toOrdinal today ∧ toOrdinal today ≤ toOrdinal e
          ∧ 0 < elapsedDays today s := by
        refine ⟨?_, hcur.1, hcur.2, hed⟩
        rw [hfin]
        simpa using not_lt.mpr hcur.2
      have hbool : (decide (toOrdinal s ≤ toOrdinal today)
          && decide (toOrdinal today ≤ toOrdinal e)) = true := by
        simp [hcur.1, hcur.2]
      unfold mark_row_forecasts_update
      rw [hmask, hbool, hs, if_pos rfl]
      dsimp only
      rw [if_neg (by omega)]
      exact (List.map_congr_left (fun v _ => by rw [if_pos hcond])).symm
    · have hcond : ¬(is_final_dates_update today r = false
          ∧ toOrdinal s ≤ toOrdinal today ∧ toOrdinal today ≤ toOrdinal e
          ∧ 0 < elapsedDays today s) := by
        intro hc
        exact hcur ⟨hc.2.1, hc.2.2.1⟩
      have hmaskf : (decide (toOrdinal s ≤ toOrdinal today)
          && decide (toOrdinal today ≤ toOrdinal e)) = false := by
        rcases not_and_or.mp hcur with h | h <;> simp [h]
      unfold mark_row_forecasts_update
      rw [hmask, hmaskf, if_neg (by simp)]
      exact (List.map_congr_left (fun v _ => by rw [if_neg hcond])).symm

unseal Rat.mul Rat.inv in
/-- C2 witness: the amended statement instantiated at the concrete
current-week row. -/
theorem mark_open_period_forecast_rounded_witness :
    ((c2row.start_d = none ∨ c2row.end_d = none) →
      mark_row_forecasts_update ⟨2026, 10, 7⟩ c2row = c2row.vals.map (fun _ => none))
    ∧ (∀ s e, c2row.start_d = some s → c2row.end_d = some e →
        mark_row_forecasts_update ⟨2026, 10, 7⟩ c2row =
          c2row.vals.map (fun v =>
            if is_final_dates_update ⟨2026, 10, 7⟩ c2row = false
                ∧ toOrdinal s ≤ toOrdinal ⟨2026, 10, 7⟩ ∧ toOrdinal ⟨2026, 10, 7⟩ ≤ toOrdinal e
                ∧ 0 < elapsedDays ⟨2026, 10, 7⟩ s then
              v.map (fun x => pyRound (x / (elapsedDays ⟨2026, 10, 7⟩ s : ℚ)
                * (forecastTotalDays c2row.period_type s : ℚ)))
            else none)) :=
  mark_open_period_forecast_rounded ⟨2026, 10, 7⟩ c2row

/-- C3 (counterexample).  With no date columns, `create_update_db`'s
`mark_open_period` marks a row final exactly when its period differs from
the maximum period in the frame — not when it is before the current
week/month.  With periods `[8, 10]` on 2026-02-12 (ISO week 7), the row with
period 8 is marked final although `8 < 7` is false, so the claimed
equivalence fails. -/
theorem mark_open_period_is_final_cex :
    is_final_nodates_create [8, 10] 8 = true
    ∧ ¬((8 : Int) < currentPeriodScalar ⟨2026, 2, 12⟩ "week") :=
  ⟨by decide, by decide⟩

/-- C3 (amended).  `update_db_sheets.mark_open_period` classifies as the
claim says, but strictly (`end_date < today`, so a period ending today is
still open) and only in that script: with an end column a row is final iff
its end date is before today, and with no date columns iff its period is
less than the current ISO week (week data) or current month (month data).
`create_update_db.mark_open_period` instead uses `end_date <= today` with an
end column, and `period != max(period)` — never consulting today — with no
date columns. -/
theorem mark_open_period_is_final_charn (today : Date) (r : MRow) (ptype : String)
    (p : Int) (periods : List Int) :
    (is_final_dates_update today r = true
      ↔ ∃ e, r.end_d = some e ∧ toOrdinal e < toOrdinal today)
    ∧ (is_final_nodates_update today ptype p = true ↔ p < currentPeriodScalar today ptype)
    ∧ (is_final_dates_create today r = true
      ↔ ∃ e, r.end_d = some e ∧ toOrdinal e ≤ toOrdinal today)
    ∧ (is_final_nodates_create periods p = true
      ↔ ∃ mx, periods.max? = some mx ∧ p ≠ mx) := by
  refine ⟨?_, ?_, ?_, ?_⟩
  · cases he : r.end_d <;> simp [is_final_dates_update, he]
  · simp [is_final_nodates_update]
  · cases he : r.end_d <;> simp [is_final_dates_create, he]
  · cases hm : periods.max? <;> simp [is_final_nodates_create, hm]

/-- C3 witness: the characterization at the concrete week-7 scenario of the
counterexample. -/
theorem mark_open_period_is_final_charn_witness :
    (is_final_dates_update ⟨2026, 2, 12⟩ c2row = true
      ↔ ∃ e, c2row.end_d = some e ∧ toOrdinal e < toOrdinal ⟨2026, 2, 12⟩)
    ∧ (is_final_nodates_update ⟨2026, 2, 12⟩ "week" 8 = true
      ↔ (8 : Int) < currentPeriodScalar ⟨2026, 2, 12⟩ "week")
    ∧ (is_final_dates_create ⟨2026, 2, 12⟩ c2row = true
      ↔ ∃ e, c2row.end_d = some e ∧ toOrdinal e ≤ toOrdinal ⟨2026, 2, 12⟩)
    ∧ (is_final_nodates_create [8, 10] 8 = true
      ↔ ∃ mx, List.max? [8, 10] = some mx ∧ (8 : Int) ≠ mx) :=
  mark_open_period_is_final_charn ⟨2026, 2, 12⟩ c2row "week" 8 [8, 10]

/-! ### Dashboard renderers (`chiesi_budget.py`, `chiesi_sessions.py`,
`ttt.py`, `gum.py`)

Each renderer's first dataframe operation is the elapsed-period filter
`df = df[df["period"] <= current]` with
`current = pd.Timestamp.today().isocalendar().week` (weekly dashboards) or
`pd.Timestamp.today().month` (`gum.py`). -/

structure KpiRow where
  period : Int
  vals : List ℚ
deriving DecidableEq

/-- `render_budget_dashboard` (`chiesi_budget.py`): `df[df["period"] <= current_week]`. -/
def render_budget_filter (today : Date) (df : List KpiRow) : List KpiRow :=
  df.filter (fun r => r.period ≤ isoWeek today)

/-- `render_sessions_dashboard` (`chiesi_sessions.py`): same filter. -/
def render_sessions_filter (today : Date) (df : List KpiRow) : List KpiRow :=
  df.filter (fun r => r.period ≤ isoWeek today)

/-- `render_ttt_dashboard` (`ttt.py`): same filter. -/
def render_ttt_filter (today : Date) (df : List KpiRow) : List KpiRow :=
  df.filter (fun r => r.period ≤ isoWeek today)

/-- `render_gum_dashboard` (`gum.py`): `df[df["period"] <= current_month]`. -/
def render_gum_filter (today : Date) (df : List KpiRow) : List KpiRow :=
  df.filter (fun r => r.period ≤ (today.m : Int))

/-- C8: every per-brand renderer keeps exactly the rows of elapsed periods —
`period <=` the current ISO week for the three weekly dashboards, `period <=`
the current month for the GUM monthly dashboard. -/
theorem render_filters_elapsed_periods (today : Date) (df : List KpiRow) (r : KpiRow) :
    (r ∈ render_budget_filter today df ↔ r ∈ df ∧ r.period ≤ isoWeek today)
    ∧ (r ∈ render_sessions_filter today df ↔ r ∈ df ∧ r.period ≤ isoWeek today)
    ∧ (r ∈ render_ttt_filter today df ↔ r ∈ df ∧ r.period ≤ isoWeek today)
    ∧ (r ∈ render_gum_filter today df ↔ r ∈ df ∧ r.period ≤ (today.m : Int)) := by
  refine ⟨?_, ?_, ?_, ?_⟩ <;>
    simp [render_budget_filter, render_sessions_filter, render_ttt_filter,
      render_gum_filter, List.mem_filter]

/-- C8 witness: the filter characterization on a concrete two-row frame on
2026-10-07 (ISO week 41, month 10): week 41 is kept, week 42 is not. -/
theorem render_filters_elapsed_periods_witness :
    ((⟨41, [0]⟩ : KpiRow) ∈ render_budget_filter ⟨2026, 10, 7⟩ [⟨41, [0]⟩, ⟨42, [0]⟩]
      ↔ (⟨41, [0]⟩ : KpiRow) ∈ ([⟨41, [0]⟩, ⟨42, [0]⟩] : List KpiRow)
        ∧ (41 : Int) ≤ isoWeek ⟨2026, 10, 7⟩)
    ∧ ((⟨41, [0]⟩ : KpiRow) ∈ render_sessions_filter ⟨2026, 10, 7⟩ [⟨41, [0]⟩, ⟨42, [0]⟩]
      ↔ (⟨41, [0]⟩ : KpiRow) ∈ ([⟨41, [0]⟩, ⟨42, [0]⟩] : List KpiRow)
        ∧ (41 : Int) ≤ isoWeek ⟨2026, 10, 7⟩)
    ∧ ((⟨41, [0]⟩ : KpiRow) ∈ render_ttt_filter ⟨2026, 10, 7⟩ [⟨41, [0]⟩, ⟨42, [0]⟩]
      ↔ (⟨41, [0]⟩ : KpiRow) ∈ ([⟨41, [0]⟩, ⟨42, [0]⟩] : List KpiRow)
        ∧ (41 : Int) ≤ isoWeek ⟨2026, 10, 7⟩)
    ∧ ((⟨41, [0]⟩ : KpiRow) ∈ render_gum_filter ⟨2026, 10, 7⟩ [⟨41, [0]⟩, ⟨42, [0]⟩]
      ↔ (⟨41, [0]⟩ : KpiRow) ∈ ([⟨41, [0]⟩, ⟨42, [0]⟩] : List KpiRow)
        ∧ (41 : Int) ≤ ((10 : Nat) : Int)) :=
  render_filters_elapsed_periods ⟨2026, 10, 7⟩ [⟨41, [0]⟩, ⟨42, [0]⟩] ⟨41, [0]⟩

/-! ### DDL / upsert -/

def quote_ident (name : String) : String := "\"" ++ name ++ "\""

def dtype_map : List (String × String) :=
  [("int64", "INTEGER"), ("float64", "DOUBLE PRECISION"), ("bool", "BOOLEAN"),
   ("datetime64[ns]", "TIMESTAMP"), ("object", "TEXT")]

def dtypeFor (t : String) : String :=
  match dtype_map.find? (fun kv => kv.1 = t) with
  | some kv => kv.2
  | none => "TEXT"

def joinSep (sep : String) : List String → String
  | [] => ""
  | [x] => x
  | x :: y :: ys => x ++ sep ++ joinSep sep (y :: ys)

def process_sheet_pkeys : List String := ["period", "period_type"]

def build_create_sql (cols : List (String × String)) (table : String)
    (pkeys : List String) : String :=
  let cols_sql := cols.map (fun ct => quote_ident ct.1 ++ " " ++ dtypeFor ct.2)
  let pk_clause :=
    if pkeys.isEmpty then ""
    else ",\n  PRIMARY KEY (" ++ joinSep ", " (pkeys.map quote_ident) ++ ")"
  "CREATE TABLE IF NOT EXISTS " ++ quote_ident table ++ " (\n  "
    ++ joinSep ",\n  " cols_sql ++ pk_clause ++ "\n);"

def build_upsert_sql (cols : List String) (table : String) (pkeys : List String) : String :=
  let colsS := joinSep ", " (cols.map quote_ident)
  let updates := joinSep ", " ((cols.filter (fun c => ¬ pkeys.contains c)).map
    (fun c => quote_ident c ++ "=EXCLUDED." ++ quote_ident c))
  let pk := joinSep ", " (pkeys.map quote_ident)
  "\n            INSERT INTO " ++ quote_ident table ++ " (" ++ colsS
    ++ ")\n            SELECT " ++ colsS ++ " FROM " ++ quote_ident ("tmp_" ++ table)
    ++ "\n            ON CONFLICT (" ++ pk ++ ") DO UPDATE SET " ++ updates
    ++ ";\n            DROP TABLE " ++ quote_ident ("tmp_" ++ table) ++ ";\n        "

/-- C6: `process_sheet` always passes `pkeys = ["period", "period_type"]`,
`build_table_if_absent` emits a `PRIMARY KEY ("period", "period_type")`
clause for exactly that key list, and the generated upsert's `ON CONFLICT`
target is exactly that column pair, for every table name and column list. -/
theorem composite_pk_period_period_type (cols : List (String × String))
    (colNames : List String) (table : String) :
    process_sheet_pkeys = ["period", "period_type"]
    ∧ (∃ pre post : String,
        build_create_sql cols table process_sheet_pkeys
          = pre ++ "PRIMARY KEY (\"period\", \"period_type\")" ++ post)
    ∧ (∃ pre post : String,
        build_upsert_sql colNames table process_sheet_pkeys
          = pre ++ "ON CONFLICT (\"period\", \"period_type\")" ++ post) := by
  refine ⟨rfl, ?_, ?_⟩
  · refine ⟨"CREATE TABLE IF NOT EXISTS " ++ quote_ident table ++ " (\n  "
        ++ joinSep ",\n  " (cols.map (fun ct => quote_ident ct.1 ++ " " ++ dtypeFor ct.2))
        ++ ",\n  ", "\n);", ?_⟩
    have e1 : ",\n  PRIMARY KEY (" = ",\n  " ++ "PRIMARY KEY (" := by decide
    have e3 : "PRIMARY KEY (" ++ joinSep ", " (List.map quote_ident ["period", "period_type"]) ++ ")"
        = "PRIMARY KEY (\"period\", \"period_type\")" := by decide
    unfold build_create_sql process_sheet_pkeys
    dsimp only
    rw [if_neg (by decide), e1, ← e3]
    simp only [String.append_assoc]
  · refine ⟨"\n            INSERT INTO " ++ quote_ident table ++ " ("
        ++ joinSep ", " (colNames.map quote_ident)
        ++ ")\n            SELECT " ++ joinSep ", " (colNames.map quote_ident)
        ++ " FROM " ++ quote_ident ("tmp_" ++ table) ++ "\n            ",
      " DO UPDATE SET "
        ++ joinSep ", " ((colNames.filter
            (fun c => ¬ (["period", "period_type"] : List String).contains c)).map
          (fun c => quote_ident c ++ "=EXCLUDED." ++ quote_ident c))
        ++ ";\n            DROP TABLE " ++ quote_ident ("tmp_" ++ table) ++ ";\n        ", ?_⟩
    have e1 : "\n            ON CONFLICT (" = "\n            " ++ "ON CONFLICT (" := by decide
    have e2 : ") DO UPDATE SET " = ")" ++ " DO UPDATE SET " := by decide
    have e3 : "ON CONFLICT (" ++ joinSep ", " (List.map quote_ident ["period", "period_type"]) ++ ")"
        = "ON CONFLICT (\"period\", \"period_type\")" := by decide
    unfold build_upsert_sql process_sheet_pkeys
    dsimp only
    rw [e1, e2, ← e3]
    simp only [String.append_assoc]

/-! ### Schema evolution (`ensure_table_columns`, `build_table_if_absent`) -/

def ensure_table_columns_stmts (dfCols : List (String × String)) (existing : List String)
    (table : String) : List String :=
  (dfCols.filter (fun ct => ¬ existing.contains ct.1)).map
    (fun ct => "ALTER TABLE " ++ quote_ident table ++ " ADD COLUMN "
      ++ quote_ident ct.1 ++ " " ++ dtypeFor ct.2 ++ ";")

def addColumns (schema dfCols : List (String × String)) : List (String × String) :=
  schema ++ dfCols.filter (fun ct => ¬ (schema.map Prod.fst).contains ct.1)

def build_table_if_absent_state (dfCols : List (String × String))
    (db : Option (List (String × String))) : Option (List (String × String)) :=
  match db with
  | some schema => some schema
  | none => some (dfCols.map (fun ct => (ct.1, dtypeFor ct.2)))

/-- C7: schema evolution is add-only.  `ensure_table_columns` emits
`ALTER TABLE ... ADD COLUMN` statements for exactly the dataframe columns
absent from the existing table (each emitted statement is an ADD COLUMN for
such a column, and every such column gets one); running them leaves every
existing column in place, in order, with its type unchanged (the old schema
is a prefix of the new one); and `CREATE TABLE IF NOT EXISTS` leaves an
existing table's schema unchanged. -/
theorem schema_evolution_add_only (table : String) (dfCols schema : List (String × String)) :
    (∀ stmt ∈ ensure_table_columns_stmts dfCols (schema.map Prod.fst) table,
      ∃ ct, ct ∈ dfCols ∧ ct.1 ∉ schema.map Prod.fst
        ∧ stmt = "ALTER TABLE " ++ quote_ident table ++ " ADD COLUMN "
            ++ quote_ident ct.1 ++ " " ++ dtypeFor ct.2 ++ ";")
    ∧ (∀ ct ∈ dfCols, ct.1 ∉ schema.map Prod.fst →
        ("ALTER TABLE " ++ quote_ident table ++ " ADD COLUMN "
            ++ quote_ident ct.1 ++ " " ++ dtypeFor ct.2 ++ ";")
          ∈ ensure_table_columns_stmts dfCols (schema.map Prod.fst) table)
    ∧ (addColumns schema dfCols).take schema.length = schema
    ∧ (∀ c ∈ schema, c ∈ addColumns schema dfCols)
    ∧ build_table_if_absent_state dfCols (some schema) = some schema := by
  refine ⟨?_, ?_, ?_, ?_, rfl⟩
  · intro stmt hstmt
    rcases List.mem_map.mp hstmt with ⟨ct, hct, rfl⟩
    rcases List.mem_filter.mp hct with ⟨h1, h2⟩
    refine ⟨ct, h1, ?_, rfl⟩
    simpa using h2
  · intro ct hct hnot
    refine List.mem_map.mpr ⟨ct, ?_, rfl⟩
    refine List.mem_filter.mpr ⟨hct, ?_⟩
    simpa using hnot
  · exact List.take_left _ _
  · intro c hc
    exact List.mem_append_left _ hc

/-- C7 witness: the add-only properties at a concrete one-column table
gaining a forecast column. -/
theorem schema_evolution_add_only_witness :
    (∀ stmt ∈ ensure_table_columns_stmts [("period", "int64"), ("uv_forecast", "float64")]
        ([("period", "int64")].map Prod.fst) "gum_monthly_uv",
      ∃ ct, ct ∈ [("period", "int64"), ("uv_forecast", "float64")]
        ∧ ct.1 ∉ [("period", "int64")].map Prod.fst
        ∧ stmt = "ALTER TABLE " ++ quote_ident "gum_monthly_uv" ++ " ADD COLUMN "
            ++ quote_ident ct.1 ++ " " ++ dtypeFor ct.2 ++ ";")
    ∧ (∀ ct ∈ [("period", "int64"), ("uv_forecast", "float64")],
        ct.1 ∉ [("period", "int64")].map Prod.fst →
        ("ALTER TABLE " ++ quote_ident "gum_monthly_uv" ++ " ADD COLUMN "
            ++ quote_ident ct.1 ++ " " ++ dtypeFor ct.2 ++ ";")
          ∈ ensure_table_columns_stmts [("period", "int64"), ("uv_forecast", "float64")]
              ([("period", "int64")].map Prod.fst) "gum_monthly_uv")
    ∧ (addColumns [("period", "int64")]
        [("period", "int64"), ("uv_forecast", "float64")]).take
          [("period", "int64")].length = [("period", "int64")]
    ∧ (∀ c ∈ [("period", "int64")], c ∈ addColumns [("period", "int64")]
        [("period", "int64"), ("uv_forecast", "float64")])
    ∧ build_table_if_absent_state [("period", "int64"), ("uv_forecast", "float64")]
        (some [("period", "int64")]) = some [("period", "int64")] :=
  schema_evolution_add_only "gum_monthly_uv"
    [("period", "int64"), ("uv_forecast", "float64")] [("period", "int64")]

/-! ### Upsert semantics (`upsert_dataframe`) -/

structure DbRow where
  period : Int
  period_type : String
  is_final : Bool
  vals : List Int
deriving DecidableEq

def rowKey (r : DbRow) : Int × String := (r.period, r.period_type)

def upsertRow (table : List DbRow) (new : DbRow) : List DbRow :=
  if table.any (fun r => rowKey r = rowKey new) then
    table.map (fun r => if rowKey r = rowKey new then new else r)
  else table ++ [new]

def upsert_dataframe (df : List DbRow) (table : List DbRow) : List DbRow :=
  df.foldl upsertRow table

/-- C1 (the code at the failing input).  `upsert_dataframe`'s
`ON CONFLICT (period, period_type) DO UPDATE SET` assigns every non-key
column from the incoming row with no guard on the stored `is_final`: with a
stored finalized row `(1, "week", is_final = true, value 5)` and an incoming
row with the same key and value 7, the stored row's values become 7 — the
previous values are not kept, contradicting the claim (and the module
docstring "i periodi chiusi restano immutati"). -/
theorem upsert_overwrites_finalized :
    upsert_dataframe [⟨1, "week", true, [7]⟩] [⟨1, "week", true, [5]⟩]
      = [⟨1, "week", true, [7]⟩]
    ∧ ([5] : List Int) ≠ [7] := by
  exact ⟨by decide, by decide⟩

/-! ### `process_sheet` period guard -/

structure PRow where
  period : Option Int
  vals : List (Option ℚ)
deriving DecidableEq

def process_sheet_period_stage (cols : List String) (rows : List PRow) :
    Except String (List PRow) :=
  if cols.contains "period" then
    Except.ok (rows.filter (fun r => r.period.isSome))
  else Except.error "Colonna period non trovata dopo il flatten"

/-- C10: `process_sheet` raises `ValueError` when no `period` column exists
after flattening, and otherwise drops exactly the rows whose period is
missing, so every row that goes on (through `mark_open_period`, which leaves
the `period` column untouched, to `upsert_dataframe`) has a non-null period
key. -/
theorem process_sheet_period_notna (cols : List String) (rows : List PRow) :
    ("period" ∉ cols → process_sheet_period_stage cols rows
        = Except.error "Colonna period non trovata dopo il flatten")
    ∧ (∀ out, process_sheet_period_stage cols rows = Except.ok out →
        (∀ r ∈ out, r.period.isSome) ∧ ∀ r ∈ out, r ∈ rows) := by
  constructor
  · intro h
    unfold process_sheet_period_stage
    rw [if_neg (by simpa using h)]
  · intro out hout
    unfold process_sheet_period_stage at hout
    by_cases hc : cols.contains "period"
    · rw [if_pos hc] at hout
      cases hout
      constructor
      · intro r hr
        exact (List.mem_filter.mp hr).2
      · intro r hr
        exact (List.mem_filter.mp hr).1
    · rw [if_neg hc] at hout
      cases hout

/-- C10 witness: the period guard on a concrete two-row frame with one
missing period. -/
theorem process_sheet_period_notna_witness :
    ("period" ∉ (["period", "period_type"] : List String) →
      process_sheet_period_stage ["period", "period_type"] [⟨some 1, []⟩, ⟨none, []⟩]
        = Except.error "Colonna period non trovata dopo il flatten")
    ∧ (∀ out, process_sheet_period_stage ["period", "period_type"]
          [⟨some 1, []⟩, ⟨none, []⟩] = Except.ok out →
        (∀ r ∈ out, r.period.isSome)
        ∧ ∀ r ∈ out, r ∈ ([⟨some 1, []⟩, ⟨none, []⟩] : List PRow)) :=
  process_sheet_period_notna ["period", "period_type"] [⟨some 1, []⟩, ⟨none, []⟩]

/-- C6 witness: the composite-key properties at a concrete table. -/
theorem composite_pk_period_period_type_witness :
    process_sheet_pkeys = ["period", "period_type"]
    ∧ (∃ pre post : String,
        build_create_sql [("period", "int64")] "gum_monthly_uv" process_sheet_pkeys
          = pre ++ "PRIMARY KEY (\"period\", \"period_type\")" ++ post)
    ∧ (∃ pre post : String,
        build_upsert_sql ["period", "period_type", "uv"] "gum_monthly_uv" process_sheet_pkeys
          = pre ++ "ON CONFLICT (\"period\", \"period_type\")" ++ post) :=
  composite_pk_period_period_type [("period", "int64")] ["period", "period_type", "uv"]
    "gum_monthly_uv"
